import Mathlib

/-!
Verification of the Christie DHD800 companion module's protocol core
(`src/main.js`, first revision in the file: the one with state polling).

The TCP sessions in `main.js` are event-driven: each `data` event delivers
one chunk (a `String`), and the handlers mutate session-local flags and the
instance's cached state while writing to the socket.  We embed a session as
a state record plus a step function `state → chunk → state × events`; a run
folds the step function over the list of chunks the device sent, producing
the per-chunk event lists (socket writes, feedback re-evaluations, the
armed linger timer, completion callbacks).
-/

namespace ChristieDHD800

/-- Events a session emits while processing one data chunk:
`send p` is `socket.send(p)`, `feedback` is
`checkFeedbacksById("power_state", "input_source")`, `armLinger ms` is the
`setTimeout(..., 1000)` that later destroys the socket, `finish` is the
`onFinish` callback (in `queryState`, `() => sock.destroy()`). -/
inductive Ev where
  | send (payload : String)
  | feedback
  | armLinger (ms : Nat)
  | finish
deriving DecidableEq, Repr

/-- Uppercased character list of a string (for the case-insensitive
JS regexes `/PASSWORD:/i` and `/HELLO/i`). -/
def upperChars (s : String) : List Char := s.data.map Char.toUpper

/-- `tok` (given in upper case) occurs as a substring of `chunk`,
case-insensitively: the test performed by `/tok/i.test(chunk)`. -/
def containsTok (chunk : String) (tok : List Char) : Bool :=
  (upperChars chunk).tails.any fun t => tok.isPrefixOf t

/-- `/PASSWORD:/i.test(chunk)` (main.js line 315 / 361). -/
def hasPass (chunk : String) : Bool := containsTok chunk "PASSWORD:".data

/-- `/HELLO/i.test(chunk)` (main.js line 321 / 364). -/
def hasHello (chunk : String) : Bool := containsTok chunk "HELLO".data

/-- Character class `[0-9A-F]` with the `i` flag, i.e. `[0-9A-Fa-f]`. -/
def hexCh (c : Char) : Bool :=
  (48 ≤ c.toNat && c.toNat ≤ 57) || (65 ≤ c.toNat && c.toNat ≤ 70) ||
    (97 ≤ c.toNat && c.toNat ≤ 102)

/-- First match of `/([0-9A-F]{2})/i` in a chunk: the leftmost two
consecutive hex-ish characters (main.js line 25, `step === 0`). -/
def findHex2 : List Char → Option (Char × Char)
  | a :: b :: rest =>
      if hexCh a && hexCh b then some (a, b) else findHex2 (b :: rest)
  | _ => none

/-- First match of `/([0-9A-F])/i` in a chunk (main.js line 25, step 1). -/
def findHex1 : List Char → Option Char
  | a :: rest => if hexCh a then some a else findHex1 rest
  | [] => none

/-- State of one `requestState` exchange (main.js lines 20-52) together
with the instance's cached device state, which `requestState` writes
(`this.powerState = responses[0]; this.inputState = responses[1]`).
`step1` is `step === 1`; `responses` is the `responses` array.
Note the `removeListener("data", parse)` on line 39 removes nothing: the
listener actually registered on line 50 is the anonymous wrapper
`(d) => parse(d.toString())`, so `parse` stays attached and later hex-ish
chunks re-run the completion branch; the embedding keeps the listener. -/
structure RState where
  step1 : Bool
  responses : List String
  powerState : Option String
  inputState : Option String
deriving DecidableEq

/-- One invocation of `requestState`'s `parse` on a chunk (main.js
lines 23-49).  `onFin` records whether an `onFinish` callback was passed
(true for `queryState`'s poll session, false for the ad-hoc session). -/
def rsParse (onFin : Bool) (rs : RState) (chunk : String) : RState × List Ev :=
  if rs.step1 = false then
    match findHex2 chunk.data with
    | some (a, b) =>
        ({ rs with step1 := true, responses := rs.responses ++ [String.mk [a, b]] },
         [Ev.send "CR1\r"])
    | none => (rs, [])
  else
    match findHex1 chunk.data with
    | some a =>
        let rsps := rs.responses ++ [String.mk [a]]
        ({ rs with responses := rsps,
                   powerState := rsps.get? 0, inputState := rsps.get? 1 },
         Ev.feedback :: (if onFin then [Ev.finish] else []))
    | none => (rs, [])

/-- Session-local state of one ad-hoc command session (`sendCommand`,
main.js lines 263-347): the closure flags `passwordSent` and `commandSent`
(lines 305-306), whether the `requestState` parse listener is attached
(it is attached inside the HELLO branch, line 327, so it only sees chunks
after the one that triggered the command), and the `requestState` state. -/
structure CmdSession where
  passwordSent : Bool
  commandSent : Bool
  parseOn : Bool
  rs : RState
deriving DecidableEq

/-- A fresh ad-hoc session as set up by `sendCommand` (flags false, no
parse listener); the instance cache fields start as whatever they were. -/
def freshCmd : CmdSession :=
  { passwordSent := false, commandSent := false, parseOn := false,
    rs := { step1 := false, responses := [], powerState := none, inputState := none } }

/-- Processing of one `data` chunk by the ad-hoc session (main.js
lines 309-339).  First the `sendCommand` data handler runs: the
`PASSWORD:` branch sends `pass + "\r"`, the else-if `HELLO` branch sends
`cmd + "\r"`, calls `requestState` (which attaches `parse` and sends
`"CR0\r"`, lines 50-51) and arms the 1000 ms linger timer (line 328).
Then, if the `parse` listener was attached before this chunk arrived,
`parse` runs on the same chunk. -/
def cmdStep (cmd pass : String) (s : CmdSession) (chunk : String) :
    CmdSession × List Ev :=
  let r :=
    if !s.passwordSent && hasPass chunk then
      ({ s with passwordSent := true }, [Ev.send (pass ++ "\r")])
    else if s.passwordSent && !s.commandSent && hasHello chunk then
      ({ s with commandSent := true, parseOn := true },
       [Ev.send (cmd ++ "\r"), Ev.send "CR0\r", Ev.armLinger 1000])
    else (s, [])
  if s.parseOn then
    let q := rsParse false r.1.rs chunk
    ({ r.1 with rs := q.1 }, r.2 ++ q.2)
  else r

/-- Run the ad-hoc session over the chunks the device sends, returning the
final state and the list of events emitted per chunk. -/
def runCmd (cmd pass : String) : CmdSession → List String → CmdSession × List (List Ev)
  | s, [] => (s, [])
  | s, c :: rest =>
      let p := cmdStep cmd pass s c
      let q := runCmd cmd pass p.1 rest
      (q.1, p.2 :: q.2)

/-- Flattened event trace of an ad-hoc session run. -/
def cmdTrace (cmd pass : String) (s : CmdSession) (chunks : List String) : List Ev :=
  (runCmd cmd pass s chunks).2.flatten

/-- Session-local state of one poll session (`queryState`, main.js
lines 349-374): flags `passwordSent` and `helloReceived` (lines 356-357)
and the `requestState` state; the parse listener is attached exactly when
`helloReceived` is set (line 366). -/
structure PollSession where
  passwordSent : Bool
  helloReceived : Bool
  rs : RState
deriving DecidableEq

/-- A fresh poll session; `p`/`i` are the instance's cached
`powerState`/`inputState` from before the cycle. -/
def freshPoll (p i : Option String) : PollSession :=
  { passwordSent := false, helloReceived := false,
    rs := { step1 := false, responses := [], powerState := p, inputState := i } }

/-- Processing of one `data` chunk by a poll session: `processData`
(main.js lines 360-370) followed, when the parse listener was already
attached, by `requestState`'s `parse` with `onFinish = () => sock.destroy()`.
The `else if (helloReceived)` branch of `processData` is an explicit no-op.
The socket's error handler is `() => {}` (line 373), so a socket error is
modelled by the chunk stream simply ending. -/
def pollStep (pass : String) (s : PollSession) (chunk : String) :
    PollSession × List Ev :=
  let r :=
    if !s.passwordSent && hasPass chunk then
      ({ s with passwordSent := true }, [Ev.send (pass ++ "\r")])
    else if s.passwordSent && !s.helloReceived && hasHello chunk then
      ({ s with helloReceived := true }, [Ev.send "CR0\r"])
    else (s, [])
  if s.helloReceived then
    let q := rsParse true r.1.rs chunk
    ({ r.1 with rs := q.1 }, r.2 ++ q.2)
  else r

/-- Run a poll session over the chunks the device sends. -/
def runPoll (pass : String) : PollSession → List String → PollSession × List (List Ev)
  | s, [] => (s, [])
  | s, c :: rest =>
      let p := pollStep pass s c
      let q := runPoll pass p.1 rest
      (q.1, p.2 :: q.2)

/-- Flattened event trace of a poll session run. -/
def pollTrace (pass : String) (s : PollSession) (chunks : List String) : List Ev :=
  (runPoll pass s chunks).2.flatten

/-- Number of writes of payload `p` in an event list. -/
def countSend (p : String) : List Ev → Nat
  | [] => 0
  | Ev.send q :: rest => (if q = p then 1 else 0) + countSend p rest
  | _ :: rest => countSend p rest

/-- Number of feedback re-evaluations in an event list. -/
def countFb : List Ev → Nat
  | [] => 0
  | Ev.feedback :: rest => 1 + countFb rest
  | _ :: rest => countFb rest

/-- The payloads written to the socket, in order. -/
def sendPayloads : List Ev → List String
  | [] => []
  | Ev.send q :: rest => q :: sendPayloads rest
  | _ :: rest => sendPayloads rest

/-- Some chunk matches `PASSWORD:` and a strictly later chunk matches
`HELLO`: the prompts were observed in order. -/
def promptsInOrder : List String → Bool
  | [] => false
  | c :: rest => (hasPass c && rest.any hasHello) || promptsInOrder rest

/-- The action table of `executeAction` (main.js lines 234-261): the
supported action identifiers and their command codes. -/
def lookupAction : String → Option String
  | "power_on" => some "C00"
  | "power_off" => some "C01"
  | "input_1" => some "C05"
  | "input_2" => some "C06"
  | "input_3" => some "C07"
  | "input_4" => some "C08"
  | "menu_on" => some "C1C"
  | "menu_off" => some "C1D"
  | _ => none

/-! ### Basic lemmas about the trace accounting functions -/

theorem countSend_append (p : String) (xs ys : List Ev) :
    countSend p (xs ++ ys) = countSend p xs + countSend p ys := by
  induction xs with
  | nil => simp [countSend]
  | cons e rest ih =>
      cases e <;> simp [countSend, ih] <;> omega

theorem countFb_append (xs ys : List Ev) :
    countFb (xs ++ ys) = countFb xs + countFb ys := by
  induction xs with
  | nil => simp [countFb]
  | cons e rest ih =>
      cases e <;> simp [countFb, ih] <;> omega

theorem append_cr_inj (a b : String) (h : a ++ "\r" = b ++ "\r") : a = b := by
  have hd : a.data ++ "\r".data = b.data ++ "\r".data := congrArg String.data h
  have hdata : a.data = b.data := List.append_cancel_right hd
  exact congrArg String.mk hdata

/-! ### Lemmas about one `requestState` parse invocation -/

theorem rsParse_countSend {p : String} (hp : p ≠ "CR1\r") (f : Bool)
    (rs : RState) (c : String) : countSend p (rsParse f rs c).2 = 0 := by
  unfold rsParse
  cases hstep : rs.step1
  · cases hfind : findHex2 c.data with
    | none => simp [countSend]
    | some ab => obtain ⟨a, b⟩ := ab; simp [countSend, Ne.symm hp]
  · cases hfind : findHex1 c.data with
    | none => simp [countSend]
    | some a => cases f <;> simp [countSend]

theorem rsParse_len (f : Bool) (rs : RState) (c : String) :
    (rsParse f rs c).1.responses.length =
      rs.responses.length +
        ((if (rsParse f rs c).1.step1 && !rs.step1 then 1 else 0) +
          countFb (rsParse f rs c).2) := by
  unfold rsParse
  cases hstep : rs.step1
  · cases hfind : findHex2 c.data with
    | none => simp [hstep, hfind, countFb]
    | some ab => obtain ⟨a, b⟩ := ab; simp [hstep, hfind, countFb]
  · cases hfind : findHex1 c.data with
    | none => simp [hstep, hfind, countFb]
    | some a => cases f <;> simp [hstep, hfind, countFb]

theorem rsParse_step1_mono (f : Bool) (rs : RState) (c : String)
    (h : rs.step1 = true) : (rsParse f rs c).1.step1 = true := by
  unfold rsParse
  cases hfind : findHex1 c.data <;> simp [h, hfind]

theorem rsParse_frame (f : Bool) (rs : RState) (c : String)
    (h : countFb (rsParse f rs c).2 = 0) :
    (rsParse f rs c).1.powerState = rs.powerState ∧
      (rsParse f rs c).1.inputState = rs.inputState := by
  unfold rsParse at h ⊢
  cases hstep : rs.step1
  · cases hfind : findHex2 c.data with
    | none => simp
    | some ab => obtain ⟨a, b⟩ := ab; simp
  · cases hfind : findHex1 c.data with
    | none => simp
    | some a => simp [hstep, hfind, countFb] at h

theorem rsParse_fb_step1 (f : Bool) (rs : RState) (c : String)
    (h : 1 ≤ countFb (rsParse f rs c).2) : (rsParse f rs c).1.step1 = true := by
  unfold rsParse at h ⊢
  cases hstep : rs.step1
  · cases hfind : findHex2 c.data with
    | none => simp [hstep, hfind, countFb] at h
    | some ab => obtain ⟨a, b⟩ := ab; simp [hstep, hfind, countFb] at h ⊢
  · cases hfind : findHex1 c.data <;> simp [hstep, hfind]

/-! ### Per-chunk equations for the ad-hoc command session -/

theorem cmdStep_passwordSent (cmd pass : String) (s : CmdSession) (c : String) :
    (cmdStep cmd pass s c).1.passwordSent = (s.passwordSent || hasPass c) := by
  cases hps : s.passwordSent <;> cases hp : hasPass c <;>
    cases hcs : s.commandSent <;> cases hh : hasHello c <;>
    cases hpo : s.parseOn <;>
    simp [cmdStep, hps, hp, hcs, hh, hpo]

theorem cmdStep_commandSent (cmd pass : String) (s : CmdSession) (c : String) :
    (cmdStep cmd pass s c).1.commandSent =
      (s.commandSent || (s.passwordSent && hasHello c)) := by
  cases hps : s.passwordSent <;> cases hp : hasPass c <;>
    cases hcs : s.commandSent <;> cases hh : hasHello c <;>
    cases hpo : s.parseOn <;>
    simp [cmdStep, hps, hp, hcs, hh, hpo]

theorem cmdStep_countCmd {cmd pass : String}
    (hpc : pass ++ "\r" ≠ cmd ++ "\r") (h0 : cmd ++ "\r" ≠ "CR0\r")
    (h1 : cmd ++ "\r" ≠ "CR1\r") (s : CmdSession) (c : String) :
    countSend (cmd ++ "\r") (cmdStep cmd pass s c).2 =
      if (cmdStep cmd pass s c).1.commandSent && !s.commandSent then 1 else 0 := by
  cases hps : s.passwordSent <;> cases hp : hasPass c <;>
    cases hcs : s.commandSent <;> cases hh : hasHello c <;>
    cases hpo : s.parseOn <;>
    simp [cmdStep, hps, hp, hcs, hh, hpo, countSend, countSend_append,
      rsParse_countSend h1, hpc, Ne.symm hpc, Ne.symm h0]

theorem cmdStep_countPass {cmd pass : String}
    (hpc : pass ++ "\r" ≠ cmd ++ "\r") (hp0 : pass ++ "\r" ≠ "CR0\r")
    (hp1 : pass ++ "\r" ≠ "CR1\r") (s : CmdSession) (c : String) :
    countSend (pass ++ "\r") (cmdStep cmd pass s c).2 =
      if (cmdStep cmd pass s c).1.passwordSent && !s.passwordSent then 1 else 0 := by
  cases hps : s.passwordSent <;> cases hp : hasPass c <;>
    cases hcs : s.commandSent <;> cases hh : hasHello c <;>
    cases hpo : s.parseOn <;>
    simp [cmdStep, hps, hp, hcs, hh, hpo, countSend, countSend_append,
      rsParse_countSend hp1, hpc, Ne.symm hpc, Ne.symm hp0]

/-! ### Run-level equations for the ad-hoc command session -/

theorem count_compose (a b c2 : Bool) (hab : a = true → b = true)
    (hbc : b = true → c2 = true) :
    ((if b && !a then 1 else 0) + (if c2 && !b then 1 else 0) : Nat)
      = if c2 && !a then 1 else 0 := by
  cases a <;> cases b <;> cases c2 <;> simp_all

theorem bool_cmd_helper : ∀ (a p hh hp ah q : Bool),
    ((a || (p && hh)) || ((p || hp) && ah) || q)
      = (a || (p && (hh || ah)) || ((hp && ah) || q)) := by decide

theorem runCmd_fst_cons (cmd pass : String) (s : CmdSession) (c : String)
    (rest : List String) :
    (runCmd cmd pass s (c :: rest)).1 =
      (runCmd cmd pass (cmdStep cmd pass s c).1 rest).1 := rfl

theorem cmdTrace_cons (cmd pass : String) (s : CmdSession) (c : String)
    (rest : List String) :
    cmdTrace cmd pass s (c :: rest) =
      (cmdStep cmd pass s c).2 ++ cmdTrace cmd pass (cmdStep cmd pass s c).1 rest := by
  simp [cmdTrace, runCmd]

theorem runCmd_passwordSent (cmd pass : String) (s : CmdSession)
    (chunks : List String) :
    (runCmd cmd pass s chunks).1.passwordSent
      = (s.passwordSent || chunks.any hasPass) := by
  induction chunks generalizing s with
  | nil => simp [runCmd]
  | cons c rest ih =>
      rw [runCmd_fst_cons, ih, cmdStep_passwordSent]
      simp [List.any_cons, Bool.or_assoc]

theorem runCmd_commandSent (cmd pass : String) (s : CmdSession)
    (chunks : List String) :
    (runCmd cmd pass s chunks).1.commandSent
      = (s.commandSent || (s.passwordSent && chunks.any hasHello)
          || promptsInOrder chunks) := by
  induction chunks generalizing s with
  | nil => simp [runCmd, promptsInOrder]
  | cons c rest ih =>
      rw [runCmd_fst_cons, ih, cmdStep_commandSent, cmdStep_passwordSent]
      simp only [List.any_cons, promptsInOrder]
      exact bool_cmd_helper s.commandSent s.passwordSent (hasHello c) (hasPass c)
        (rest.any hasHello) (promptsInOrder rest)

theorem cmdStep_passwordSent_mono (cmd pass : String) (s : CmdSession) (c : String)
    (h : s.passwordSent = true) : (cmdStep cmd pass s c).1.passwordSent = true := by
  simp [cmdStep_passwordSent, h]

theorem cmdStep_commandSent_mono (cmd pass : String) (s : CmdSession) (c : String)
    (h : s.commandSent = true) : (cmdStep cmd pass s c).1.commandSent = true := by
  simp [cmdStep_commandSent, h]

theorem runCmd_passwordSent_mono (cmd pass : String) (s : CmdSession)
    (chunks : List String) (h : s.passwordSent = true) :
    (runCmd cmd pass s chunks).1.passwordSent = true := by
  simp [runCmd_passwordSent, h]

theorem runCmd_commandSent_mono (cmd pass : String) (s : CmdSession)
    (chunks : List String) (h : s.commandSent = true) :
    (runCmd cmd pass s chunks).1.commandSent = true := by
  simp [runCmd_commandSent, h]

theorem runCmd_countCmd {cmd pass : String}
    (hpc : pass ++ "\r" ≠ cmd ++ "\r") (h0 : cmd ++ "\r" ≠ "CR0\r")
    (h1 : cmd ++ "\r" ≠ "CR1\r") (s : CmdSession) (chunks : List String) :
    countSend (cmd ++ "\r") (cmdTrace cmd pass s chunks) =
      if (runCmd cmd pass s chunks).1.commandSent && !s.commandSent then 1
      else 0 := by
  induction chunks generalizing s with
  | nil => simp [cmdTrace, runCmd, countSend]
  | cons c rest ih =>
      rw [cmdTrace_cons, countSend_append, cmdStep_countCmd hpc h0 h1, ih,
        runCmd_fst_cons]
      exact count_compose s.commandSent (cmdStep cmd pass s c).1.commandSent
        (runCmd cmd pass (cmdStep cmd pass s c).1 rest).1.commandSent
        (cmdStep_commandSent_mono cmd pass s c)
        (runCmd_commandSent_mono cmd pass (cmdStep cmd pass s c).1 rest)

theorem runCmd_countPass {cmd pass : String}
    (hpc : pass ++ "\r" ≠ cmd ++ "\r") (hp0 : pass ++ "\r" ≠ "CR0\r")
    (hp1 : pass ++ "\r" ≠ "CR1\r") (s : CmdSession) (chunks : List String) :
    countSend (pass ++ "\r") (cmdTrace cmd pass s chunks) =
      if (runCmd cmd pass s chunks).1.passwordSent && !s.passwordSent then 1
      else 0 := by
  induction chunks generalizing s with
  | nil => simp [cmdTrace, runCmd, countSend]
  | cons c rest ih =>
      rw [cmdTrace_cons, countSend_append, cmdStep_countPass hpc hp0 hp1, ih,
        runCmd_fst_cons]
      exact count_compose s.passwordSent (cmdStep cmd pass s c).1.passwordSent
        (runCmd cmd pass (cmdStep cmd pass s c).1 rest).1.passwordSent
        (cmdStep_passwordSent_mono cmd pass s c)
        (runCmd_passwordSent_mono cmd pass (cmdStep cmd pass s c).1 rest)

/-! ### Per-chunk and run-level equations for the poll session -/

theorem pollStep_rs (pass : String) (s : PollSession) (c : String) :
    (pollStep pass s c).1.rs =
      if s.helloReceived then (rsParse true s.rs c).1 else s.rs := by
  cases hps : s.passwordSent <;> cases hhr : s.helloReceived <;>
    cases hp : hasPass c <;> cases hh : hasHello c <;>
    simp [pollStep, hps, hhr, hp, hh]

theorem pollStep_countFb (pass : String) (s : PollSession) (c : String) :
    countFb (pollStep pass s c).2 =
      if s.helloReceived then countFb (rsParse true s.rs c).2 else 0 := by
  cases hps : s.passwordSent <;> cases hhr : s.helloReceived <;>
    cases hp : hasPass c <;> cases hh : hasHello c <;>
    simp [pollStep, hps, hhr, hp, hh, countFb_append, countFb]

theorem pollStep_len (pass : String) (s : PollSession) (c : String) :
    (pollStep pass s c).1.rs.responses.length =
      s.rs.responses.length +
        ((if (pollStep pass s c).1.rs.step1 && !s.rs.step1 then 1 else 0) +
          countFb (pollStep pass s c).2) := by
  rw [pollStep_rs, pollStep_countFb]
  cases hhr : s.helloReceived
  · simp
  · simpa using rsParse_len true s.rs c

theorem pollStep_step1_mono (pass : String) (s : PollSession) (c : String)
    (h : s.rs.step1 = true) : (pollStep pass s c).1.rs.step1 = true := by
  rw [pollStep_rs]
  cases hhr : s.helloReceived
  · simpa using h
  · simpa using rsParse_step1_mono true s.rs c h

theorem pollStep_frame (pass : String) (s : PollSession) (c : String)
    (h : countFb (pollStep pass s c).2 = 0) :
    (pollStep pass s c).1.rs.powerState = s.rs.powerState ∧
      (pollStep pass s c).1.rs.inputState = s.rs.inputState := by
  rw [pollStep_countFb] at h
  rw [pollStep_rs]
  cases hhr : s.helloReceived
  · simp
  · rw [hhr] at h; simpa using rsParse_frame true s.rs c (by simpa using h)

theorem pollStep_fb_step1 (pass : String) (s : PollSession) (c : String)
    (h : 1 ≤ countFb (pollStep pass s c).2) :
    (pollStep pass s c).1.rs.step1 = true := by
  rw [pollStep_countFb] at h
  rw [pollStep_rs]
  cases hhr : s.helloReceived
  · rw [hhr] at h; simp at h
  · rw [hhr] at h; simpa using rsParse_fb_step1 true s.rs c (by simpa using h)

theorem runPoll_fst_cons (pass : String) (s : PollSession) (c : String)
    (rest : List String) :
    (runPoll pass s (c :: rest)).1 =
      (runPoll pass (pollStep pass s c).1 rest).1 := rfl

theorem pollTrace_cons (pass : String) (s : PollSession) (c : String)
    (rest : List String) :
    pollTrace pass s (c :: rest) =
      (pollStep pass s c).2 ++ pollTrace pass (pollStep pass s c).1 rest := by
  simp [pollTrace, runPoll]

theorem runPoll_step1_mono (pass : String) (s : PollSession)
    (chunks : List String) (h : s.rs.step1 = true) :
    (runPoll pass s chunks).1.rs.step1 = true := by
  induction chunks generalizing s with
  | nil => simpa [runPoll] using h
  | cons c rest ih =>
      rw [runPoll_fst_cons]
      exact ih _ (pollStep_step1_mono pass s c h)

theorem runPoll_len (pass : String) (chunks : List String) :
    ∀ s : PollSession,
      (runPoll pass s chunks).1.rs.responses.length =
        s.rs.responses.length +
          ((if (runPoll pass s chunks).1.rs.step1 && !s.rs.step1 then 1 else 0) +
            countFb (pollTrace pass s chunks)) := by
  induction chunks with
  | nil => intro s; simp [runPoll, pollTrace, countFb]
  | cons c rest ih =>
      intro s
      rw [pollTrace_cons, countFb_append, runPoll_fst_cons, ih, pollStep_len]
      have hcomp := count_compose s.rs.step1 (pollStep pass s c).1.rs.step1
        (runPoll pass (pollStep pass s c).1 rest).1.rs.step1
        (pollStep_step1_mono pass s c)
        (runPoll_step1_mono pass (pollStep pass s c).1 rest)
      omega

theorem runPoll_frame (pass : String) (chunks : List String) :
    ∀ s : PollSession, countFb (pollTrace pass s chunks) = 0 →
      (runPoll pass s chunks).1.rs.powerState = s.rs.powerState ∧
        (runPoll pass s chunks).1.rs.inputState = s.rs.inputState := by
  induction chunks with
  | nil => intro s _; simp [runPoll]
  | cons c rest ih =>
      intro s h
      rw [pollTrace_cons, countFb_append] at h
      have h1 : countFb (pollStep pass s c).2 = 0 := by omega
      have h2 : countFb (pollTrace pass (pollStep pass s c).1 rest) = 0 := by omega
      have hs := pollStep_frame pass s c h1
      have hr := ih (pollStep pass s c).1 h2
      rw [runPoll_fst_cons]
      exact ⟨hr.1.trans hs.1, hr.2.trans hs.2⟩

theorem runPoll_fb_step1 (pass : String) (chunks : List String) :
    ∀ s : PollSession, 1 ≤ countFb (pollTrace pass s chunks) →
      (runPoll pass s chunks).1.rs.step1 = true := by
  induction chunks with
  | nil => intro s h; simp [pollTrace, runPoll, countFb] at h
  | cons c rest ih =>
      intro s h
      rw [pollTrace_cons, countFb_append] at h
      rw [runPoll_fst_cons]
      by_cases h2 : 1 ≤ countFb (pollTrace pass (pollStep pass s c).1 rest)
      · exact ih _ h2
      · have h1 : 1 ≤ countFb (pollStep pass s c).2 := by omega
        exact runPoll_step1_mono pass _ rest (pollStep_fb_step1 pass s c h1)

/-! ### Instance-level model: configuration, action dispatch, config fields -/

/-- The module configuration `{host, port, password}` (spec data model;
`this.config` in main.js).  A missing host is modelled by `""` (the JS
check is `!this.config.host`, falsy for the empty string), a missing or
zero port by `0` (the JS fallback is `this.config.port || 10000`). -/
structure Config where
  host : String
  port : Nat
  password : String
deriving DecidableEq

/-- Instance-level observable effects of `executeAction`/`sendCommand`
before any data arrives: the error log for a missing host (line 268),
destruction of a prior session's socket (line 279), and the opening of a
new TCP connection (line 289). -/
inductive IEv where
  | logError (msg : String)
  | destroySock (id : Nat)
  | openConn (host : String) (port : Nat)
deriving DecidableEq

/-- The instance fields `sendCommand` touches before the handshake:
configuration and the `this.socket` field (socket handles numbered by
`nextSock`); the cached device state rides along untouched. -/
structure Instance where
  config : Config
  socket : Option Nat
  nextSock : Nat
  powerState : Option String
  inputState : Option String
deriving DecidableEq

/-- `sendCommand` up to the creation of the TCP connection (main.js lines
263-289): abort with an error log if no host is configured; otherwise
destroy any existing socket and open a new connection to
`config.host : config.port || 10000`. -/
def sendCommandStart (inst : Instance) : Instance × List IEv :=
  if inst.config.host = "" then (inst, [IEv.logError "Host not configured"])
  else
    let r := match inst.socket with
      | some s => ({ inst with socket := none }, [IEv.destroySock s])
      | none => (inst, [])
    ({ r.1 with socket := some r.1.nextSock, nextSock := r.1.nextSock + 1 },
     r.2 ++ [IEv.openConn inst.config.host
              (if inst.config.port = 0 then 10000 else inst.config.port)])

/-- `executeAction` (main.js lines 234-261): the switch dispatches the
supported identifiers to `sendCommand`; any other identifier falls through
the switch and nothing at all happens. -/
def executeActionM (inst : Instance) (actionId : String) : Instance × List IEv :=
  match lookupAction actionId with
  | some _ => sendCommandStart inst
  | none => (inst, [])

/-- The two format validators from the host library used by
`getConfigFields` (`Regex.HOSTNAME` and `Regex.PORT`, external constants
of `@companion-module/base`). -/
inductive ValidatorPat where
  | hostname
  | port
deriving DecidableEq

/-- A `default` value of a config field: absent, numeric or string. -/
inductive FieldDefault where
  | absent
  | num (n : Nat)
  | str (s : String)
deriving DecidableEq

/-- One entry of the array returned by `getConfigFields`. -/
structure ConfigField where
  type : String
  id : String
  label : String
  width : Nat
  regex : Option ValidatorPat
  default : FieldDefault
deriving DecidableEq

/-- `getConfigFields` (main.js lines 112-137); it reads nothing from the
instance, so the model takes the instance and ignores it. -/
def getConfigFields (_inst : Instance) : List ConfigField :=
  [ { type := "textinput", id := "host", label := "Projector IP", width := 6,
      regex := some ValidatorPat.hostname, default := FieldDefault.absent },
    { type := "textinput", id := "port", label := "Port", width := 6,
      regex := some ValidatorPat.port, default := FieldDefault.num 10000 },
    { type := "textinput", id := "password", label := "Password", width := 6,
      regex := none, default := FieldDefault.str "" } ]

/-! ### The linger timer and the `this.socket` field (for the overlap
hazard).  The callback armed on main.js line 328 is
`() => { this.socket.destroy(); this.socket = undefined; }`: it captures
only `this`, so when it fires it destroys whatever socket the instance
field holds at that moment — not necessarily the socket of the session
that armed it — and throws a `TypeError` if the field is `undefined`. -/

/-- Operations touching `this.socket` and the pending linger timers. -/
inductive WAct where
  | startSession
  | helloArrives
  | teardown
  | fireLinger
deriving DecidableEq

/-- `socketF` is `this.socket`; `pendingTimers` counts armed linger
callbacks (they carry no data of their own); `destroyed` lists the socket
handles destroyed so far, in order; `typeErr` records a
`TypeError` from dereferencing `undefined`. -/
structure World where
  socketF : Option Nat
  nextId : Nat
  pendingTimers : Nat
  destroyed : List Nat
  typeErr : Bool
deriving DecidableEq

/-- `startSession`: `sendCommand` destroys any existing `this.socket`
(lines 272-281) and installs a fresh one (line 289). `helloArrives`: the
HELLO branch arms the 1 s linger timer (line 328). `teardown`: `destroy()`
destroys `this.socket` and deletes the field (lines 76-82). `fireLinger`:
one armed callback runs `this.socket.destroy(); this.socket = undefined`
(lines 332-336), a `TypeError` if the field is `undefined`. -/
def wstep (w : World) : WAct → World
  | WAct.startSession =>
      let w1 := match w.socketF with
        | some s => { w with destroyed := w.destroyed ++ [s] }
        | none => w
      { w1 with socketF := some w.nextId, nextId := w.nextId + 1 }
  | WAct.helloArrives => { w with pendingTimers := w.pendingTimers + 1 }
  | WAct.teardown =>
      match w.socketF with
      | some s => { w with destroyed := w.destroyed ++ [s], socketF := none }
      | none => w
  | WAct.fireLinger =>
      if w.pendingTimers = 0 then w
      else
        match w.socketF with
        | some s =>
            { w with pendingTimers := w.pendingTimers - 1,
                     destroyed := w.destroyed ++ [s], socketF := none }
        | none => { w with pendingTimers := w.pendingTimers - 1, typeErr := true }

/-- Run a sequence of operations on the instance. -/
def runW : World → List WAct → World
  | w, [] => w
  | w, a :: rest => runW (wstep w a) rest

/-- The instance right after `init`: no socket, no timers. -/
def w0 : World :=
  { socketF := none, nextId := 0, pendingTimers := 0, destroyed := [],
    typeErr := false }

/-! ### Helper lemmas shared by the claim theorems -/

theorem append_cr_ne (a b : String) (h : a ≠ b) : a ++ "\r" ≠ b ++ "\r" :=
  fun heq => h (append_cr_inj a b heq)

theorem lookupAction_code_cases (id code : String)
    (h : lookupAction id = some code) :
    code = "C00" ∨ code = "C01" ∨ code = "C05" ∨ code = "C06" ∨
      code = "C07" ∨ code = "C08" ∨ code = "C1C" ∨ code = "C1D" := by
  unfold lookupAction at h
  split at h <;> simp_all

theorem code_cr_ne (code : String)
    (h : code = "C00" ∨ code = "C01" ∨ code = "C05" ∨ code = "C06" ∨
      code = "C07" ∨ code = "C08" ∨ code = "C1C" ∨ code = "C1D") :
    code ++ "\r" ≠ "CR0\r" ∧ code ++ "\r" ≠ "CR1\r" := by
  rcases h with h | h | h | h | h | h | h | h <;> subst h <;>
    exact ⟨by decide, by decide⟩

theorem promptsInOrder_any_hello (l : List String)
    (h : promptsInOrder l = true) : l.any hasHello = true := by
  induction l with
  | nil => simp [promptsInOrder] at h
  | cons c rest ih =>
      simp only [promptsInOrder, Bool.or_eq_true, Bool.and_eq_true] at h
      rcases h with ⟨_, hh⟩ | h
      · simp [List.any_cons, hh]
      · simp [List.any_cons, ih h]

theorem countCmd_run_eq (id code pass : String)
    (hc : lookupAction id = some code) (hpw : pass ≠ code)
    (chunks : List String) :
    countSend (code ++ "\r") (cmdTrace code pass freshCmd chunks) =
      if promptsInOrder chunks then 1 else 0 := by
  have hcr := code_cr_ne code (lookupAction_code_cases id code hc)
  rw [runCmd_countCmd (append_cr_ne pass code hpw) hcr.1 hcr.2,
    runCmd_commandSent]
  simp [freshCmd]

/-! ### The claims -/

/-- C1: for every supported action identifier, `executeAction(id)` causes
at most one write of the mapped command code followed by `\r` to the
session's socket; exactly one when (and only when) a data chunk matching
`PASSWORD:` is followed by a strictly later chunk matching `HELLO`; and
whenever the command write has happened by some point of the run, the two
prompts had already been observed in that order by that point.  Writes are
identified by their payload, so the configured password is assumed to
differ from the command code (otherwise the password write is
byte-identical to the command write). -/
theorem c1_command_write_unique (id code pass : String)
    (hc : lookupAction id = some code) (hpw : pass ≠ code) :
    (∀ chunks : List String,
        countSend (code ++ "\r") (cmdTrace code pass freshCmd chunks) ≤ 1) ∧
    (∀ chunks : List String,
        countSend (code ++ "\r") (cmdTrace code pass freshCmd chunks) = 1 ↔
          promptsInOrder chunks = true) ∧
    (∀ (chunks : List String) (k : Nat),
        1 ≤ countSend (code ++ "\r")
              (cmdTrace code pass freshCmd (chunks.take k)) →
          promptsInOrder (chunks.take k) = true) := by
  refine ⟨?_, ?_, ?_⟩
  · intro chunks
    rw [countCmd_run_eq id code pass hc hpw]
    split <;> omega
  · intro chunks
    rw [countCmd_run_eq id code pass hc hpw]
    by_cases h : promptsInOrder chunks = true <;> simp [h]
  · intro chunks k hk
    rw [countCmd_run_eq id code pass hc hpw] at hk
    by_cases h : promptsInOrder (chunks.take k) = true
    · exact h
    · simp [h] at hk

/-- Witness for C1 at `power_on`, empty password, prompts arriving in
order: the command write happens exactly once. -/
theorem c1_witness :
    lookupAction "power_on" = some "C00" ∧ ("" : String) ≠ "C00" ∧
    countSend ("C00" ++ "\r")
        (cmdTrace "C00" "" freshCmd ["PASSWORD:\r", "HELLO\r"]) = 1 :=
  ⟨rfl, by decide,
    ((c1_command_write_unique "power_on" "C00" "" rfl (by decide)).2.1
        ["PASSWORD:\r", "HELLO\r"]).mpr (by decide)⟩

/-- C2 counterexample: in the claimed scenario (host configured, empty
password, `executeAction("power_on")`, device sends `PASSWORD:\r` then
`HELLO\r`) the session does NOT write exactly `\r` then `C00\r`: the HELLO
branch calls `requestState` right after sending the command (main.js line
327), which immediately writes the first status query `CR0\r`, so three
payloads are written. -/
theorem c2_counterexample :
    sendPayloads (cmdTrace "C00" "" freshCmd ["PASSWORD:\r", "HELLO\r"]) =
      ["\r", "C00\r", "CR0\r"] ∧
    (["\r", "C00\r", "CR0\r"] : List String) ≠ ["\r", "C00\r"] := by decide

/-- C2 amended: in that scenario the session writes exactly `\r`, then
`C00\r`, then `CR0\r`, in that order (the password reply on the
`PASSWORD:\r` chunk; the command, the first status query and the armed
1000 ms linger on the `HELLO\r` chunk), and the socket destruction is
scheduled 1000 ms after the command write, within the claimed ~1.1 s. -/
theorem c2_amended :
    lookupAction "power_on" = some "C00" ∧
    (runCmd "C00" "" freshCmd ["PASSWORD:\r", "HELLO\r"]).2 =
      [[Ev.send "\r"],
       [Ev.send "C00\r", Ev.send "CR0\r", Ev.armLinger 1000]] ∧
    1000 ≤ 1100 := by decide

/-- C3: within one ad-hoc session the password is written exactly once as
soon as at least one chunk matches `PASSWORD:` (in particular when two or
more do — the `passwordSent` flag makes detection idempotent), and the
command write fires at most once (the `commandSent` flag).  Writes are
identified by payload, so the password is assumed distinct from the
command code and from the status-query codes. -/
theorem c3_prompt_idempotent (id code pass : String)
    (hc : lookupAction id = some code) (hpw : pass ≠ code)
    (hp0 : pass ≠ "CR0") (hp1 : pass ≠ "CR1") (chunks : List String)
    (hpp : 2 ≤ chunks.countP (fun c => hasPass c)) :
    countSend (pass ++ "\r") (cmdTrace code pass freshCmd chunks) = 1 ∧
    countSend (code ++ "\r") (cmdTrace code pass freshCmd chunks) ≤ 1 := by
  constructor
  · have hp0cr : pass ++ "\r" ≠ "CR0\r" := by
      have h : ("CR0\r" : String) = "CR0" ++ "\r" := by decide
      rw [h]; exact append_cr_ne pass "CR0" hp0
    have hp1cr : pass ++ "\r" ≠ "CR1\r" := by
      have h : ("CR1\r" : String) = "CR1" ++ "\r" := by decide
      rw [h]; exact append_cr_ne pass "CR1" hp1
    rw [runCmd_countPass (append_cr_ne pass code hpw) hp0cr hp1cr,
      runCmd_passwordSent]
    have hany : chunks.any (fun c => hasPass c) = true := by
      rw [List.any_eq_true]
      have hpos : 0 < chunks.countP (fun c => hasPass c) := by omega
      exact List.countP_pos_iff.mp hpos
    simp [freshCmd, hany]
  · rw [countCmd_run_eq id code pass hc hpw]
    split <;> omega

/-- Witness for C3: two `PASSWORD:` chunks, empty password — the password
(`"" + "\r"`) is written exactly once. -/
theorem c3_witness :
    2 ≤ (["PASSWORD:", "PASSWORD:"] : List String).countP (fun c => hasPass c) ∧
    countSend ("" ++ "\r")
        (cmdTrace "C00" "" freshCmd ["PASSWORD:", "PASSWORD:"]) = 1 :=
  ⟨by decide,
    (c3_prompt_idempotent "power_on" "C00" "" rfl (by decide) (by decide)
        (by decide) ["PASSWORD:", "PASSWORD:"] (by decide)).1⟩

/-- C4: a poll cycle that after the handshake receives `00` for `CR0` and
then `3` for `CR1` emits, per chunk: the password reply, the `CR0` write,
the `CR1` write (on the chunk carrying the `CR0` reply — so `CR1` is not
written before the `CR0` reply is parsed), and finally one feedback
re-evaluation plus the completion callback; the cache ends as
`powerState = "00"`, `inputState = "3"`, whatever it held before. -/
theorem c4_poll_updates_cache (pass : String) (p i : Option String) :
    (runPoll pass (freshPoll p i) ["PASSWORD:\r", "HELLO\r", "00\r", "3\r"]).2 =
      [[Ev.send (pass ++ "\r")], [Ev.send "CR0\r"], [Ev.send "CR1\r"],
       [Ev.feedback, Ev.finish]] ∧
    (runPoll pass (freshPoll p i)
        ["PASSWORD:\r", "HELLO\r", "00\r", "3\r"]).1.rs.powerState = some "00" ∧
    (runPoll pass (freshPoll p i)
        ["PASSWORD:\r", "HELLO\r", "00\r", "3\r"]).1.rs.inputState = some "3" ∧
    countFb (pollTrace pass (freshPoll p i)
        ["PASSWORD:\r", "HELLO\r", "00\r", "3\r"]) = 1 := by
  have e1 : hasPass "PASSWORD:\r" = true := by decide
  have e2 : hasHello "PASSWORD:\r" = false := by decide
  have e3 : hasPass "HELLO\r" = false := by decide
  have e4 : hasHello "HELLO\r" = true := by decide
  have e5 : hasPass "00\r" = false := by decide
  have e6 : hasHello "00\r" = false := by decide
  have e7 : hasPass "3\r" = false := by decide
  have e8 : hasHello "3\r" = false := by decide
  have f1 : findHex2 "00\r".data = some ('0', '0') := by decide
  have f2 : findHex1 "3\r".data = some '3' := by decide
  have m1 : String.mk ['0', '0'] = "00" := by decide
  have m2 : String.mk ['3'] = "3" := by decide
  simp [runPoll, pollStep, rsParse, freshPoll, pollTrace, countFb,
    e1, e2, e3, e4, e5, e6, e7, e8, f1, f2, m1, m2]

/-- C5: a poll cycle that fails before both status tokens are parsed
(fewer than two entries ever land in `responses` — covering socket errors,
truncated streams and prompts that never match) leaves the cached
`powerState`/`inputState` exactly as they were and performs no feedback
re-evaluation; in particular the cache is never reset by a failed cycle. -/
theorem c5_failed_poll_frame (pass : String) (p i : Option String)
    (chunks : List String)
    (h : (runPoll pass (freshPoll p i) chunks).1.rs.responses.length < 2) :
    (runPoll pass (freshPoll p i) chunks).1.rs.powerState = p ∧
    (runPoll pass (freshPoll p i) chunks).1.rs.inputState = i ∧
    countFb (pollTrace pass (freshPoll p i) chunks) = 0 := by
  have hlen := runPoll_len pass chunks (freshPoll p i)
  have hfb : countFb (pollTrace pass (freshPoll p i) chunks) = 0 := by
    by_contra hne
    have h1 : 1 ≤ countFb (pollTrace pass (freshPoll p i) chunks) :=
      Nat.one_le_iff_ne_zero.mpr hne
    have hs1 := runPoll_fb_step1 pass chunks (freshPoll p i) h1
    rw [hs1] at hlen
    have hstep : (freshPoll p i).rs.step1 = false := rfl
    have hresp : (freshPoll p i).rs.responses.length = 0 := rfl
    rw [hstep, hresp] at hlen
    simp only [Bool.not_false, Bool.and_true, if_true, Nat.zero_add] at hlen
    omega
  have hframe := runPoll_frame pass chunks (freshPoll p i) hfb
  exact ⟨hframe.1.trans rfl, hframe.2.trans rfl, hfb⟩

/-- Witness for C5: a cycle that only ever saw the password prompt leaves
the previously cached values in place. -/
theorem c5_witness :
    (runPoll "" (freshPoll (some "80") (some "1"))
        ["PASSWORD:\r"]).1.rs.responses.length < 2 ∧
    (runPoll "" (freshPoll (some "80") (some "1"))
        ["PASSWORD:\r"]).1.rs.powerState = some "80" :=
  ⟨by decide,
    (c5_failed_poll_frame "" (some "80") (some "1") ["PASSWORD:\r"]
        (by decide)).1⟩

/-- C6: for an action identifier outside the supported set,
`executeAction` falls through the switch: no socket write, no connection,
no error log, and the instance state (configuration, cache, socket field)
is returned unchanged. -/
theorem c6_unknown_action_noop (inst : Instance) (id : String)
    (h : lookupAction id = none) : executeActionM inst id = (inst, []) := by
  simp [executeActionM, h]

/-- Witness for C6 at the identifier `unknown_action` from the spec
scenario. -/
theorem c6_witness :
    lookupAction "unknown_action" = none ∧
    executeActionM
        { config := { host := "127.0.0.1", port := 10000, password := "" },
          socket := none, nextSock := 0, powerState := none, inputState := none }
        "unknown_action" =
      ({ config := { host := "127.0.0.1", port := 10000, password := "" },
         socket := none, nextSock := 0, powerState := none, inputState := none },
       []) :=
  ⟨rfl, c6_unknown_action_noop _ "unknown_action" rfl⟩

/-- C7: `getConfigFields` always returns exactly three fields, with ids
`host`, `port`, `password` in that order; the host field carries the
hostname validator, the port field the numeric-port validator and default
10000, and the password field default `""`. -/
theorem c7_config_fields (inst : Instance) :
    (getConfigFields inst).length = 3 ∧
    (getConfigFields inst).map (fun f => f.id) = ["host", "port", "password"] ∧
    (getConfigFields inst).map (fun f => f.regex) =
      [some ValidatorPat.hostname, some ValidatorPat.port, none] ∧
    (getConfigFields inst).map (fun f => f.default) =
      [FieldDefault.absent, FieldDefault.num 10000, FieldDefault.str ""] :=
  ⟨rfl, rfl, rfl, rfl⟩

/-- C8 counterexample: there is no reassembly accumulator — the prompt
regexes are tested against each chunk in isolation, so the prompt bytes
split as `PASSW` then `ORD:` trigger nothing at all (no write, password
flag still down), while the same bytes in a single chunk do trigger the
password send. -/
theorem c8_counterexample :
    cmdTrace "C00" "" freshCmd ["PASSW", "ORD:"] = [] ∧
    (runCmd "C00" "" freshCmd ["PASSW", "ORD:"]).1.passwordSent = false ∧
    cmdTrace "C00" "" freshCmd ["PASSWORD:"] = [Ev.send "\r"] := by decide

/-- C8 amended: prompt detection is strictly per chunk: for every run the
password has been sent exactly when some single chunk contained
`PASSWORD:` (case-insensitively, anywhere in the chunk); a prompt split
across chunks, such as `PASSW` + `ORD:`, matches no chunk and therefore
never triggers. -/
theorem c8_amended (cmd pass : String) (chunks : List String) :
    (runCmd cmd pass freshCmd chunks).1.passwordSent = chunks.any hasPass ∧
    hasPass "PASSW" = false ∧ hasPass "ORD:" = false ∧
    hasPass "PASSWORD:" = true := by
  refine ⟨?_, by decide, by decide, by decide⟩
  rw [runCmd_passwordSent]
  simp [freshCmd]

/-- C9: the linger callback dereferences `this.socket` at fire time, so it
destroys whatever socket the instance field currently holds — not the
socket of the session that armed it.  Concretely: after session 0 arms the
timer and a new session 1 starts inside the linger window (destroying
socket 0), the timer firing destroys socket 1 and clears the field; and if
the field is already `undefined` when the timer fires (teardown ran), the
callback dereferences `undefined` (a `TypeError`). -/
theorem c9_linger_timer (w : World) (cur : Nat)
    (ht : w.pendingTimers ≠ 0) (hs : w.socketF = some cur) :
    ((wstep w WAct.fireLinger).destroyed = w.destroyed ++ [cur] ∧
      (wstep w WAct.fireLinger).socketF = none) ∧
    (runW w0 [WAct.startSession, WAct.helloArrives,
        WAct.startSession]).destroyed = [0] ∧
    (runW w0 [WAct.startSession, WAct.helloArrives, WAct.startSession,
        WAct.fireLinger]).destroyed = [0, 1] ∧
    (runW w0 [WAct.startSession, WAct.helloArrives, WAct.startSession,
        WAct.fireLinger]).socketF = none ∧
    (runW w0 [WAct.startSession, WAct.helloArrives, WAct.teardown,
        WAct.fireLinger]).typeErr = true := by
  refine ⟨?_, by decide, by decide, by decide, by decide⟩
  simp [wstep, ht, hs]

/-- Witness for C9: a world holding socket 7 with one armed timer — the
fire destroys socket 7 regardless of which session armed the timer. -/
theorem c9_witness :
    (wstep { socketF := some 7, nextId := 8, pendingTimers := 1,
             destroyed := [], typeErr := false } WAct.fireLinger).destroyed =
      ({ socketF := some 7, nextId := 8, pendingTimers := 1,
         destroyed := [], typeErr := false } : World).destroyed ++ [7] :=
  (c9_linger_timer
      { socketF := some 7, nextId := 8, pendingTimers := 1,
        destroyed := [], typeErr := false } 7 (by decide) rfl).1.1

/-- C10: a single chunk matching both `PASSWORD:` and `HELLO` triggers
only the password send (the HELLO branch is an else-if, skipped on the
chunk that fired the password branch); the command is sent exactly when a
strictly later chunk matches `HELLO`. -/
theorem c10_combined_prompt_chunk (cmd pass c : String)
    (h1 : hasPass c = true) (h2 : hasHello c = true) :
    cmdStep cmd pass freshCmd c =
      ({ freshCmd with passwordSent := true }, [Ev.send (pass ++ "\r")]) ∧
    (∀ rest : List String,
        (runCmd cmd pass freshCmd (c :: rest)).1.commandSent
          = rest.any hasHello) := by
  constructor
  · simp [cmdStep, freshCmd, h1, h2]
  · intro rest
    rw [runCmd_commandSent]
    simp only [freshCmd, promptsInOrder, h1, Bool.false_or, Bool.false_and,
      Bool.true_and]
    cases hx : rest.any hasHello
    · cases hp : promptsInOrder rest
      · rfl
      · have := promptsInOrder_any_hello rest hp
        rw [hx] at this
        exact absurd this (by simp)
    · rfl

/-- Witness for C10 at the chunk `PASSWORD:\rHELLO\r`: only the password
is sent in response. -/
theorem c10_witness :
    hasPass "PASSWORD:\rHELLO\r" = true ∧ hasHello "PASSWORD:\rHELLO\r" = true ∧
    cmdStep "C00" "" freshCmd "PASSWORD:\rHELLO\r" =
      ({ freshCmd with passwordSent := true }, [Ev.send ("" ++ "\r")]) :=
  ⟨by decide, by decide,
    (c10_combined_prompt_chunk "C00" "" "PASSWORD:\rHELLO\r" (by decide)
        (by decide)).1⟩

end ChristieDHD800
